import Mathlib

/-!
Verification development for the insights-api repository: a shallow embedding
of the adaptive summarization pipeline (token-budget decision, token chunking,
map-reduce summarization, insight extraction, and the generate-or-retrieve
route), with theorems settling the frozen claims about it.

External collaborators (the tokenizer, the vector store, the language-model
backend, the dense-embedding backend, the sparse BM25 model) are modelled as
oracle fields of an `Env` record; every remote call made by the pipeline is
recorded in an explicit `Trace` so that claims about "zero model calls" or
"no upsert on failure" are statable.
-/

namespace InsightsApi

/-! ## Dictionaries (Python dict semantics on string keys) -/

/-- Lookup of a key in an association list, first match wins; models Python
`d[k]` / `d.get(k)` returning `None` when absent (keys are unique in an
actual Python dict, where first match is the only match). -/
def dictGet : List (String × String) → String → Option String
  | [], _ => none
  | (k', v) :: rest, k => if k' = k then some v else dictGet rest k

/-- Lookup with a default, models Python `d.get(k, default)`. -/
def dictGetD (d : List (String × String)) (k : String) (default : String) : String :=
  (dictGet d k).getD default

/-- Assignment `d[k] = v` with Python dict semantics: overwrite in place if the
key is present, else append at the end. -/
def dictSet : List (String × String) → String → String → List (String × String)
  | [], k, v => [(k, v)]
  | (k', v') :: rest, k, v =>
    if k' = k then (k, v) :: rest else (k', v') :: dictSet rest k v

/-! ## Data model (src/app/models/schemas.py) -/

/-- A stored vector-store point, reduced to its payload (the pipeline never
reads vectors back; `with_vectors=False` in `get_points_by_file_id`). -/
structure Point where
  payload : List (String × String)
deriving DecidableEq

/-- Request body of POST /generate-insights (schemas.py `InsightsRequest`). -/
structure InsightsRequest where
  case_id : String
  file_id : String
  case_type : String
  data_source : String
deriving DecidableEq

/-- Response body (schemas.py `InsightsResponse`); optional fields carry the
pydantic defaults: `chunk_count = None`, `total_tokens = None`,
`used_summarization = False`, `num_summary_chunks = None`. -/
structure InsightsResponse where
  case_id : String
  file_id : String
  case_type : String
  data_source : String
  insights : String
  source : String
  chunk_count : Option Nat := none
  total_tokens : Option Nat := none
  used_summarization : Option Bool := some false
  num_summary_chunks : Option Nat := none
deriving DecidableEq

/-- The members of the `DataSource` enum (schemas.py lines 17-22). -/
def dataSourceValues : List String :=
  ["audio", "video", "image", "ufed_extraction", "others"]

/-- HTTPException outcomes of the route, tagged by status code:
400 bad request, 404 not found, 500 internal/upstream error. -/
inductive Err where
  | badRequest : String → Err
  | notFound : String → Err
  | internal : String → Err
deriving DecidableEq

/-! ## Configuration constants (src/app/config/settings.py) -/

def MAX_TOKENS_BEFORE_SUMMARIZATION : Nat := 120000
def CHUNK_SIZE_FOR_SUMMARIZATION : Nat := 50000
def MEGA_SUMMARY_TARGET : Nat := 5000
def INSIGHTS_MAX_TOKENS : Nat := 2000

/-! ## Oracle environment and call trace -/

/-- One point upserted into the vector store
(qdrant_service.py `store_insights_in_qdrant`, lines 129-148). -/
structure UpsertRec where
  point_payload : List (String × String)
  dense : List Int
  sparse_indices : List Nat
  sparse_values : List Int
deriving DecidableEq

/-- Record of every outbound remote call the pipeline has made: language-model
calls (prompt, max_tokens actually sent), dense-embedding calls
(text, case_id, file_id), and vector-store upserts. -/
structure Trace where
  llmCalls : List (String × Option Nat)
  embedCalls : List (String × String × String)
  upserts : List UpsertRec
deriving DecidableEq

/-- The empty trace a request starts from. -/
def emptyTrace : Trace := ⟨[], [], []⟩

/-- Oracles for the external collaborators.
`encode`/`decode` model the tiktoken cl100k_base tokenizer (token_utils.py
line 9); `getPoints` models `get_points_by_file_id(file_id, content_type?,
case_type?, data_source?)` (qdrant_service.py lines 23-84); `llm` models the
chat-completions backend (prompt and max_tokens in, content out, `none` on
failure); `denseEmbed` models the embedding backend (llm_service.py lines
113-143, `none` on failure); `sparseEmbed` models the local BM25 model
(indices, values); `freshId` models `uuid.uuid4()`. -/
structure Env where
  encode : String → List Nat
  decode : List Nat → String
  getPoints : String → Option String → Option String → Option String → List Point
  llm : String → Option Nat → Option String
  denseEmbed : String → String → String → Option (List Int)
  sparseEmbed : String → List Nat × List Int
  freshId : String

/-! ## Token utilities (src/app/utils/token_utils.py) -/

/-- Number of tokens of a text (token_utils.py `count_tokens`, lines 12-14):
the length of the tokenizer encoding. -/
def count_tokens (env : Env) (text : String) : Nat :=
  (env.encode text).length

/-- Core loop of `split_into_token_chunks` (token_utils.py lines 25-28): the
encoded token list is partitioned into contiguous windows of at most
`chunk_size` tokens, `for i in range(0, total_tokens, chunk_size):
tokens[i:i + chunk_size]`. A zero `chunk_size` raises in Python (`range` step
must be non-zero); the claims only concern `chunk_size > 0`, and this model
returns `[]` in that unreachable case. -/
def chunk_token_windows (tokens : List Nat) (chunk_size : Nat) : List (List Nat) :=
  match tokens, chunk_size with
  | [], _ => []
  | _ :: _, 0 => []
  | t :: ts, cs + 1 =>
    (t :: ts).take (cs + 1) :: chunk_token_windows ((t :: ts).drop (cs + 1)) (cs + 1)
termination_by tokens.length
decreasing_by
  simp [List.length_drop]
  omega

/-- Split text into chunks of at most `chunk_size` tokens (token_utils.py
`split_into_token_chunks`, lines 17-32): encode, window the token list, and
decode each window back to text independently. -/
def split_into_token_chunks (env : Env) (text : String) (chunk_size : Nat) : List String :=
  (chunk_token_windows (env.encode text) chunk_size).map env.decode

/-! ## Prompt templates (src/app/config/prompt.py), with `.format` holes
turned into function arguments. -/

/-- Analytical insight-extraction prompt (prompt.py `PROMPT_TEMPLATE`),
parameterized by case type and data source (each appearing twice). -/
def PROMPT_TEMPLATE (case_type data_source : String) : String :=
  "[Role]\nYou're an investigative insight generator specialized in forensic analysis and criminal investigation.\n\n[Details]\nCase Type: "
    ++ case_type
    ++ "\nData Source: "
    ++ data_source
    ++ "\nOutput Schema:\n- Summary: Brief overview of the analyzed content\n- Criminal Activities: List of potential criminal activities identified\n- Suspicious Keywords: Key terms and phrases that raise red flags\n- Connections to Leads: Links between entities, locations, or events\n- Deeper Insights: Analysis of patterns and behavioral indicators\n- Classification: Risk level and category assessment\n\n[Tone]\nProfessional and clear, using simple language that anyone can understand. Present findings objectively without speculation. Strictly do not use tables and emojis and respond only in the given schema.\n\n[Example Format]\nSummary: The audio recordings show discussions about suspicious financial transactions.\nCriminal Activities: Potential money laundering, structuring of payments.\nSuspicious Keywords: \"clean money\", \"offshore\", \"cash only\".\nConnections to Leads: Speaker A contacted Person B three times before each transaction.\nDeeper Insights: Pattern of avoiding banks suggests intent to evade detection.\nClassification: High risk - requires immediate investigation.\n\n[Prompt]\nAnalyze the following "
    ++ data_source
    ++ " data related to "
    ++ case_type
    ++ ". Extract insights following the exact schema above, and answer in bullet point format only. Be thorough but concise."

/-- Per-chunk summarization prompt (prompt.py `SUMMARIZATION_PROMPT`). -/
def SUMMARIZATION_PROMPT (text : String) : String :=
  "Summarize the following text concisely, focusing on key information, facts, and important details. Keep the summary comprehensive but condensed.\n\nText:\n"
    ++ text
    ++ "\n\nSummary:"

/-- Reduction prompt (prompt.py `MEGA_SUMMARY_PROMPT`), parameterized by the
target token count and the combined labeled summaries. -/
def MEGA_SUMMARY_PROMPT (target_tokens : Nat) (summaries : String) : String :=
  "Synthesize the following summaries into a single comprehensive summary of approximately "
    ++ toString target_tokens
    ++ " tokens. Integrate all key information, eliminate redundancies, and create a cohesive narrative.\n\nSummaries:\n"
    ++ summaries
    ++ "\n\nComprehensive Summary:"

/-! ## LLM service (src/app/services/llm_service.py) -/

/-- Python truthiness of the `max_tokens` parameter in `call_llm` (llm_service
lines 35-36): the key is added to the request payload only when `max_tokens`
is both present and non-zero. -/
def truthy_max_tokens : Option Nat → Option Nat
  | none => none
  | some n => if n = 0 then none else some n

/-- Single language-model call (llm_service.py `call_llm`, lines 21-57): send
prompt plus optional `max_tokens`, record the outbound call, return the
response content verbatim, or a 500 error when the backend fails.
Temperature is a fixed constant (0.3) with no bearing on any claim and is
not modelled. -/
def call_llm (env : Env) (tr : Trace) (prompt : String) (max_tokens : Option Nat) :
    Except Err String × Trace :=
  match env.llm prompt (truthy_max_tokens max_tokens) with
  | some content =>
    (Except.ok content,
      { tr with llmCalls := tr.llmCalls ++ [(prompt, truthy_max_tokens max_tokens)] })
  | none =>
    (Except.error (Err.internal "LLM error"),
      { tr with llmCalls := tr.llmCalls ++ [(prompt, truthy_max_tokens max_tokens)] })

/-- Summarize one chunk (llm_service.py `summarize_chunk`, lines 60-68);
`chunk_idx` is used only for logging in the source. -/
def summarize_chunk (env : Env) (tr : Trace) (chunk : String) (_chunk_idx : Nat) :
    Except Err String × Trace :=
  call_llm env tr (SUMMARIZATION_PROMPT chunk) none

/-- Labels chunk summaries with their 1-based position, carrying the running
index `i`: models the comprehension
`f"Summary {i+1}:\n{summary}" for i, summary in enumerate(chunk_summaries)`
(llm_service.py lines 75-78). -/
def label_summaries : Nat → List String → List String
  | _, [] => []
  | i, s :: rest => ("Summary " ++ toString (i + 1) ++ ":\n" ++ s) :: label_summaries (i + 1) rest

/-- The combined summaries block joined with blank lines (llm_service.py
lines 75-78). -/
def combined_summaries (chunk_summaries : List String) : String :=
  String.intercalate "\n\n" (label_summaries 0 chunk_summaries)

/-- Reduction stage (llm_service.py `create_mega_summary`, lines 71-89): one
language-model call over the labeled, order-preserving concatenation of all
chunk summaries, with `max_tokens = target_tokens + 500`; the response is
returned verbatim (the token count computed afterwards is only logged). -/
def create_mega_summary (env : Env) (tr : Trace) (chunk_summaries : List String)
    (target_tokens : Nat) : Except Err String × Trace :=
  call_llm env tr
    (MEGA_SUMMARY_PROMPT target_tokens (combined_summaries chunk_summaries))
    (some (target_tokens + 500))

/-- Insight extraction (llm_service.py `generate_insights_from_text`, lines
92-110): the analytical template followed by the content, one call with the
given output cap, response returned verbatim. -/
def generate_insights_from_text (env : Env) (tr : Trace) (text case_type data_source : String)
    (max_tokens : Nat) : Except Err String × Trace :=
  call_llm env tr
    (PROMPT_TEMPLATE case_type data_source ++ "\n\nContent to analyze:\n" ++ text)
    (some max_tokens)

/-- Dense embedding call (llm_service.py `generate_dense_embedding`, lines
113-143): record the outbound call; a non-success status or a failed result
flag becomes a 500 error. -/
def generate_dense_embedding (env : Env) (tr : Trace) (text case_id file_id : String) :
    Except Err (List Int) × Trace :=
  match env.denseEmbed text case_id file_id with
  | some v =>
    (Except.ok v, { tr with embedCalls := tr.embedCalls ++ [(text, case_id, file_id)] })
  | none =>
    (Except.error (Err.internal "Embedding generation failed"),
      { tr with embedCalls := tr.embedCalls ++ [(text, case_id, file_id)] })

/-! ## Insights service (src/app/services/insights_service.py) -/

/-- Sequential summarization of every chunk in order, carrying the enumeration
index (insights_service.py lines 38-41): the first failing call aborts the
whole operation. -/
def summarize_all (env : Env) (tr : Trace) (idx : Nat) :
    List String → Except Err (List String) × Trace
  | [] => (Except.ok [], tr)
  | c :: rest =>
    match summarize_chunk env tr c idx with
    | (Except.error e, tr') => (Except.error e, tr')
    | (Except.ok s, tr') =>
      match summarize_all env tr' (idx + 1) rest with
      | (Except.error e, tr'') => (Except.error e, tr'')
      | (Except.ok ss, tr'') => (Except.ok (s :: ss), tr'')

/-- Summarization path (insights_service.py
`generate_insights_with_summarization`, lines 21-54): split into 50k-token
chunks, summarize each in order, reduce to a mega summary, extract insights
from it; returns the insight text and the number of chunks. -/
def generate_insights_with_summarization (env : Env) (tr : Trace)
    (concatenated_text case_type data_source : String) :
    Except Err (String × Nat) × Trace :=
  let token_chunks := split_into_token_chunks env concatenated_text CHUNK_SIZE_FOR_SUMMARIZATION
  match summarize_all env tr 0 token_chunks with
  | (Except.error e, tr') => (Except.error e, tr')
  | (Except.ok chunk_summaries, tr') =>
    match create_mega_summary env tr' chunk_summaries MEGA_SUMMARY_TARGET with
    | (Except.error e, tr'') => (Except.error e, tr'')
    | (Except.ok mega_summary, tr'') =>
      match generate_insights_from_text env tr'' mega_summary case_type data_source
          INSIGHTS_MAX_TOKENS with
      | (Except.error e, tr3) => (Except.error e, tr3)
      | (Except.ok insights, tr3) => (Except.ok (insights, token_chunks.length), tr3)

/-- Direct path (insights_service.py `generate_insights_direct`, lines 57-72):
one extraction call over the full concatenated text. -/
def generate_insights_direct (env : Env) (tr : Trace)
    (concatenated_text case_type data_source : String) : Except Err String × Trace :=
  generate_insights_from_text env tr concatenated_text case_type data_source INSIGHTS_MAX_TOKENS

/-- The summarization decision (insights_service.py `should_use_summarization`,
lines 75-77): strict greater-than comparison against the threshold. -/
def should_use_summarization (total_tokens : Nat) : Bool :=
  decide (total_tokens > MAX_TOKENS_BEFORE_SUMMARIZATION)

/-! ## Qdrant service (src/app/services/qdrant_service.py) -/

/-- Local sparse BM25 embedding (qdrant_service.py `generate_sparse_embedding`,
lines 87-95); no failure mode. -/
def generate_sparse_embedding (env : Env) (text : String) : List Nat × List Int :=
  env.sparseEmbed text

/-- Keys excluded from the metadata-copy loop of `store_insights_in_qdrant`
(qdrant_service.py line 125): `key not in ["page_content", "file_id",
"case_id", "content_type"]`. -/
def excluded_metadata_key (k : String) : Bool :=
  k == "page_content" || k == "file_id" || k == "case_id" || k == "content_type"

/-- The stored payload (qdrant_service.py lines 113-126): the literal dict of
generated fields, then every non-excluded key of the sample fragment's
metadata copied over it in iteration order. -/
def store_payload (insights file_id case_id : String)
    (sample_metadata : List (String × String)) (case_type data_source : String) :
    List (String × String) :=
  let payload0 : List (String × String) :=
    [("page_content", insights), ("file_id", file_id), ("case_id", case_id),
     ("content_type", "insights"), ("case_type", case_type), ("data_source", data_source)]
  sample_metadata.foldl
    (fun p kv => if excluded_metadata_key kv.1 then p else dictSet p kv.1 kv.2) payload0

/-- Store generated insights (qdrant_service.py `store_insights_in_qdrant`,
lines 98-151): sparse embedding, payload construction, upsert of one point
with both vectors; returns the fresh point id. -/
def store_insights_in_qdrant (env : Env) (tr : Trace) (insights file_id case_id : String)
    (sample_metadata : List (String × String)) (case_type data_source : String)
    (dense_embedding : List Int) : String × Trace :=
  let sparse := generate_sparse_embedding env insights
  let payload := store_payload insights file_id case_id sample_metadata case_type data_source
  let point_id := env.freshId
  (point_id,
    { tr with upserts := tr.upserts ++ [⟨payload, dense_embedding, sparse.1, sparse.2⟩] })

/-! ## Route handler (src/app/api/routes.py `generate_insights`, lines 35-165) -/

/-- Filter keeping only non-insight content points (routes.py lines 82 and 87):
`p.payload.get("content_type") != "insights"`. -/
def not_insights (p : Point) : Bool :=
  !(dictGet p.payload "content_type" == some "insights")

/-- Python truthiness of a retrieved page_content string (routes.py line 97):
kept only when non-empty. -/
def nonempty_text (t : String) : Bool := !(t == "")

/-- Steps 3-5 of the route handler (routes.py lines 89-159), on the list of
retrieved content points after the strict/relaxed retrieval and the insights
filter: the 404 when no points remain, concatenation of non-empty
page_content, the token-threshold branch, embedding, storage, and the
generated response. Factored out of the handler so both retrieval branches
share it. -/
def process_content (env : Env) (req : InsightsRequest) :
    List Point → Except Err InsightsResponse × Trace
  | [] => (Except.error (Err.notFound "No chunks found"), emptyTrace)
  | p0 :: rest =>
    let chunks_text :=
      ((p0 :: rest).map (fun p => dictGetD p.payload "page_content" "")).filter nonempty_text
    if chunks_text = [] then
      (Except.error (Err.badRequest "No valid page_content found"), emptyTrace)
    else
      let concatenated_text := String.intercalate "\n\n" chunks_text
      let total_tokens := count_tokens env concatenated_text
      let gen : Except Err (String × Option Nat) × Trace :=
        if should_use_summarization total_tokens then
          match generate_insights_with_summarization env emptyTrace concatenated_text
              req.case_type req.data_source with
          | (Except.error e, tr) => (Except.error e, tr)
          | (Except.ok (t, n), tr) => (Except.ok (t, some n), tr)
        else
          match generate_insights_direct env emptyTrace concatenated_text
              req.case_type req.data_source with
          | (Except.error e, tr) => (Except.error e, tr)
          | (Except.ok t, tr) => (Except.ok (t, (none : Option Nat)), tr)
      match gen with
      | (Except.error e, tr) => (Except.error e, tr)
      | (Except.ok (insights_text, num_summary_chunks), tr1) =>
        match generate_dense_embedding env tr1 insights_text req.case_id req.file_id with
        | (Except.error e, tr2) => (Except.error e, tr2)
        | (Except.ok dense, tr2) =>
          let stored := store_insights_in_qdrant env tr2 insights_text req.file_id
            req.case_id p0.payload req.case_type req.data_source dense
          (Except.ok
            { case_id := req.case_id, file_id := req.file_id, case_type := req.case_type,
              data_source := req.data_source,
              insights := insights_text,
              source := "generated",
              chunk_count := some chunks_text.length,
              total_tokens := some total_tokens,
              used_summarization := some (should_use_summarization total_tokens),
              num_summary_chunks := num_summary_chunks }, stored.2)

/-- The generate-or-retrieve pipeline (routes.py `generate_insights`):
validation, existing-insights short-circuit, strict then relaxed content
retrieval, then `process_content`. Returns the route's outcome together with
the trace of every outbound remote call. The emptiness check
`not request.case_type or not request.case_type.strip()` (routes.py line 44)
holds exactly when every character of case_type is whitespace (an empty
string included), which is how it is written here. -/
def runPipeline (env : Env) (req : InsightsRequest) :
    Except Err InsightsResponse × Trace :=
  if req.case_type.toList.all Char.isWhitespace then
    (Except.error (Err.badRequest "case_type cannot be empty"), emptyTrace)
  else if dataSourceValues.contains req.data_source = false then
    (Except.error (Err.badRequest "Invalid data_source"), emptyTrace)
  else
    match env.getPoints req.file_id (some "insights") (some req.case_type) (some req.data_source) with
    | p :: _ =>
      (Except.ok
        { case_id := req.case_id, file_id := req.file_id, case_type := req.case_type,
          data_source := req.data_source,
          insights := dictGetD p.payload "page_content" "",
          source := "existing",
          chunk_count := none, total_tokens := none,
          used_summarization := some false, num_summary_chunks := none }, emptyTrace)
    | [] =>
      let strict := (env.getPoints req.file_id none none (some req.data_source)).filter not_insights
      process_content env req
        (if strict = [] then (env.getPoints req.file_id none none none).filter not_insights
         else strict)

/-! ## Concrete fixtures for witnesses and counterexamples -/

/-- A well-formed request (valid enum member "audio", non-blank case type). -/
def reqStd : InsightsRequest :=
  { case_id := "c1", file_id := "f1", case_type := "General", data_source := "audio" }

/-- A request whose data_source is outside the recognized enumeration. -/
def reqBadDS : InsightsRequest :=
  { case_id := "c1", file_id := "f1", case_type := "General", data_source := "sms" }

/-- Tokenizer-oriented environment: each character is one token; the store is
empty and the model backends answer with fixed strings. -/
def envTok : Env where
  encode := fun s => List.range s.length
  decode := fun _ => "d"
  getPoints := fun _ _ _ _ => []
  llm := fun _ _ => some "mega"
  denseEmbed := fun _ _ _ => some [1]
  sparseEmbed := fun _ => ([], [])
  freshId := "pid"

/-- Environment whose store already holds insights for every insights-filtered
query. -/
def envExisting : Env where
  encode := fun s => List.range s.length
  decode := fun _ => "d"
  getPoints := fun _ ct _ _ =>
    if ct = some "insights" then [⟨[("page_content", "stored insights")]⟩] else []
  llm := fun _ _ => some "llm output"
  denseEmbed := fun _ _ _ => some [1]
  sparseEmbed := fun _ => ([], [])
  freshId := "pid"

/-- Environment with no existing insights and one single-token content
fragment; all backends succeed, driving the direct generation path. -/
def envGen : Env where
  encode := fun _ => [0]
  decode := fun _ => "d"
  getPoints := fun _ ct _ _ =>
    if ct = some "insights" then [] else [⟨[("page_content", "doc")]⟩]
  llm := fun _ _ => some "llm output"
  denseEmbed := fun _ _ _ => some [1]
  sparseEmbed := fun _ => ([], [])
  freshId := "pid"

/-- Environment whose store is empty for every query. -/
def envEmpty : Env where
  encode := fun s => List.range s.length
  decode := fun _ => "d"
  getPoints := fun _ _ _ _ => []
  llm := fun _ _ => some "llm output"
  denseEmbed := fun _ _ _ => some [1]
  sparseEmbed := fun _ => ([], [])
  freshId := "pid"

/-- The response produced by `runPipeline envExisting reqStd`. -/
def respExist : InsightsResponse :=
  { case_id := "c1", file_id := "f1", case_type := "General", data_source := "audio",
    insights := "stored insights", source := "existing",
    chunk_count := none, total_tokens := none,
    used_summarization := some false, num_summary_chunks := none }

/-- The response produced by `runPipeline envGen reqStd`. -/
def respGen : InsightsResponse :=
  { case_id := "c1", file_id := "f1", case_type := "General", data_source := "audio",
    insights := "llm output", source := "generated",
    chunk_count := some 1, total_tokens := some 1,
    used_summarization := some false, num_summary_chunks := none }

/-! ## Lemmas about the token-windowing loop -/

/-- Windowing the empty token list yields no chunks. -/
theorem chunk_token_windows_nil (cs : Nat) : chunk_token_windows [] cs = [] := by
  simp only [chunk_token_windows]

/-- One unfolding step of the windowing loop on a non-empty token list and a
positive chunk size. -/
theorem chunk_token_windows_cons (t : Nat) (ts : List Nat) (cs : Nat) :
    chunk_token_windows (t :: ts) (cs + 1)
      = (t :: ts).take (cs + 1) :: chunk_token_windows ((t :: ts).drop (cs + 1)) (cs + 1) := by
  simp only [chunk_token_windows]

/-- Windowing a non-empty token list with positive chunk size yields at least
one chunk. -/
theorem chunk_token_windows_ne_nil (t : Nat) (ts : List Nat) (cs : Nat) :
    chunk_token_windows (t :: ts) (cs + 1) ≠ [] := by
  rw [chunk_token_windows_cons]
  exact List.cons_ne_nil _ _

/-- Concatenating all windows reproduces the original token list. -/
theorem chunk_token_windows_join : ∀ (tokens : List Nat) (cs : Nat), 0 < cs →
    (chunk_token_windows tokens cs).flatten = tokens
  | [], cs, _ => by rw [chunk_token_windows_nil]; rfl
  | _ :: _, 0, h => absurd h (lt_irrefl 0)
  | t :: ts, cs + 1, _ => by
    rw [chunk_token_windows_cons, List.flatten_cons,
      chunk_token_windows_join ((t :: ts).drop (cs + 1)) (cs + 1) (Nat.succ_pos cs),
      List.take_append_drop]
termination_by tokens _ _ => tokens.length
decreasing_by
  simp [List.length_drop]
  omega

/-- The number of windows is the ceiling of the token count divided by the
chunk size, in the form `(len + cs - 1) / cs`. -/
theorem chunk_token_windows_length : ∀ (tokens : List Nat) (cs : Nat), 0 < cs →
    (chunk_token_windows tokens cs).length = (tokens.length + cs - 1) / cs
  | [], cs, hcs => by
    rw [chunk_token_windows_nil]
    simp only [List.length_nil]
    rw [Nat.div_eq_of_lt (by omega)]
  | _ :: _, 0, h => absurd h (lt_irrefl 0)
  | t :: ts, cs + 1, _ => by
    rw [chunk_token_windows_cons]
    rw [List.length_cons]
    rw [chunk_token_windows_length ((t :: ts).drop (cs + 1)) (cs + 1) (Nat.succ_pos cs)]
    rw [List.length_drop]
    have hL : 0 < (t :: ts).length := by simp
    have h1 : (t :: ts).length + (cs + 1) - 1 = ((t :: ts).length - 1) + (cs + 1) := by omega
    rw [h1, Nat.add_div_right _ (Nat.succ_pos cs)]
    rcases Nat.lt_or_ge ((t :: ts).length) (cs + 2) with hlt | hge
    · have h0 : (t :: ts).length - (cs + 1) = 0 := by omega
      rw [h0]
      have h2 : 0 + (cs + 1) - 1 = cs := by omega
      rw [h2, Nat.div_eq_of_lt (show cs < cs + 1 by omega),
        Nat.div_eq_of_lt (show (t :: ts).length - 1 < cs + 1 by omega)]
    · have h2 : (t :: ts).length - (cs + 1) + (cs + 1) - 1 = (t :: ts).length - 1 := by omega
      rw [h2]
termination_by tokens _ _ => tokens.length
decreasing_by
  simp [List.length_drop]
  omega

/-- Every window holds at most `cs` tokens. -/
theorem chunk_token_windows_le : ∀ (tokens : List Nat) (cs : Nat), 0 < cs →
    ∀ w ∈ chunk_token_windows tokens cs, w.length ≤ cs
  | [], cs, _ => by rw [chunk_token_windows_nil]; intro w hw; simp at hw
  | _ :: _, 0, h => absurd h (lt_irrefl 0)
  | t :: ts, cs + 1, _ => by
    rw [chunk_token_windows_cons]
    intro w hw
    rcases List.mem_cons.mp hw with h | h
    · rw [h, List.length_take]
      exact min_le_left _ _
    · exact chunk_token_windows_le ((t :: ts).drop (cs + 1)) (cs + 1) (Nat.succ_pos cs) w h
termination_by tokens _ _ => tokens.length
decreasing_by
  simp [List.length_drop]
  omega

/-- Every window except possibly the last holds exactly `cs` tokens. -/
theorem chunk_token_windows_full : ∀ (tokens : List Nat) (cs : Nat), 0 < cs →
    ∀ i, i + 1 < (chunk_token_windows tokens cs).length →
      ((chunk_token_windows tokens cs).getD i []).length = cs
  | [], cs, _ => by rw [chunk_token_windows_nil]; intro i hi; simp at hi
  | _ :: _, 0, h => absurd h (lt_irrefl 0)
  | t :: ts, cs + 1, _ => by
    rw [chunk_token_windows_cons]
    intro i hi
    cases i with
    | zero =>
      simp only [List.length_cons] at hi
      have hWpos : 0 < (chunk_token_windows ((t :: ts).drop (cs + 1)) (cs + 1)).length := by
        omega
      have hd : (t :: ts).drop (cs + 1) ≠ [] := by
        intro h0
        rw [h0, chunk_token_windows_nil] at hWpos
        simp at hWpos
      have hlen : cs + 1 < (t :: ts).length := by
        by_contra hc
        push_neg at hc
        exact hd (List.drop_eq_nil_of_le hc)
      simp only [List.getD_cons_zero]
      rw [List.length_take, Nat.min_eq_left (by omega)]
    | succ j =>
      simp only [List.getD_cons_succ]
      apply chunk_token_windows_full ((t :: ts).drop (cs + 1)) (cs + 1) (Nat.succ_pos cs) j
      simp only [List.length_cons] at hi
      omega
termination_by tokens _ _ => tokens.length
decreasing_by
  simp [List.length_drop]
  omega

/-- C2: for every text and every chunkSize > 0, split_into_token_chunks
produces exactly ceil(totalTokens / chunkSize) chunks (written here in the
form `(totalTokens + chunkSize - 1) / chunkSize`), every chunk's underlying
token window holds at most chunkSize tokens, and every chunk except possibly
the last holds exactly chunkSize tokens — so only the last chunk may have
fewer. -/
theorem chunk_count_and_bounds (env : Env) (text : String) (chunk_size : Nat)
    (hcs : 0 < chunk_size) :
    (split_into_token_chunks env text chunk_size).length
        = (count_tokens env text + chunk_size - 1) / chunk_size
    ∧ (∀ w ∈ chunk_token_windows (env.encode text) chunk_size, w.length ≤ chunk_size)
    ∧ (∀ i, i + 1 < (chunk_token_windows (env.encode text) chunk_size).length →
        ((chunk_token_windows (env.encode text) chunk_size).getD i []).length = chunk_size) := by
  refine ⟨?_, chunk_token_windows_le _ _ hcs, chunk_token_windows_full _ _ hcs⟩
  unfold split_into_token_chunks count_tokens
  rw [List.length_map]
  exact chunk_token_windows_length _ _ hcs

/-- Witness for chunk_count_and_bounds: a five-token text split at chunk size
2 yields exactly three chunks. -/
theorem chunk_count_and_bounds_witness :
    0 < 2
    ∧ (split_into_token_chunks envTok "abcde" 2).length
        = (count_tokens envTok "abcde" + 2 - 1) / 2
    ∧ (split_into_token_chunks envTok "abcde" 2).length = 3 := by
  refine ⟨by decide, (chunk_count_and_bounds envTok "abcde" 2 (by decide)).1, ?_⟩
  have h := (chunk_count_and_bounds envTok "abcde" 2 (by decide)).1
  have hc : count_tokens envTok "abcde" = 5 := rfl
  rw [hc] at h
  norm_num at h
  exact h

/-- C3: concatenating the underlying token windows of all chunks produced by
split_into_token_chunks, in output order, reproduces the original token
sequence of the input exactly; the text-level chunks are exactly these
windows re-decoded. -/
theorem chunk_concat_reproduces_tokens (env : Env) (text : String) (chunk_size : Nat)
    (hcs : 0 < chunk_size) :
    (chunk_token_windows (env.encode text) chunk_size).flatten = env.encode text
    ∧ split_into_token_chunks env text chunk_size
        = (chunk_token_windows (env.encode text) chunk_size).map env.decode :=
  ⟨chunk_token_windows_join _ _ hcs, rfl⟩

/-- Witness for chunk_concat_reproduces_tokens at a concrete five-token text
and chunk size 2. -/
theorem chunk_concat_reproduces_tokens_witness :
    0 < 2
    ∧ (chunk_token_windows (envTok.encode "abcde") 2).flatten = envTok.encode "abcde" :=
  ⟨by decide, (chunk_concat_reproduces_tokens envTok "abcde" 2 (by decide)).1⟩

/-! ## Lemmas about dictionaries and the stored payload -/

/-- Writing a key makes it readable. -/
theorem dictGet_dictSet_self : ∀ (d : List (String × String)) (k v : String),
    dictGet (dictSet d k v) k = some v := by
  intro d k v
  induction d with
  | nil => simp [dictSet, dictGet]
  | cons kv rest ih =>
    by_cases h : kv.1 = k
    · simp [dictSet, dictGet, h]
    · simp only [dictSet, dictGet, if_neg h]
      exact ih

/-- Writing one key leaves every other key unchanged. -/
theorem dictGet_dictSet_ne : ∀ (d : List (String × String)) (k' k v' : String), k' ≠ k →
    dictGet (dictSet d k' v') k = dictGet d k := by
  intro d k' k v' hne
  induction d with
  | nil => simp [dictSet, dictGet, hne]
  | cons kv rest ih =>
    by_cases h : kv.1 = k'
    · simp only [dictSet, dictGet, if_pos h]
      rw [if_neg hne, if_neg (h ▸ hne)]
    · simp only [dictSet, dictGet, if_neg h]
      by_cases h2 : kv.1 = k
      · rw [if_pos h2, if_pos h2]
      · rw [if_neg h2, if_neg h2]
        exact ih

/-- A metadata-copy fold over pairs whose keys all differ from `k` does not
change the value stored at `k`. -/
theorem dictGet_copy_fold_not_mem :
    ∀ (rest : List (String × String)) (p : List (String × String)) (k : String),
    (∀ kv ∈ rest, kv.1 ≠ k) →
    dictGet (rest.foldl
        (fun p kv => if excluded_metadata_key kv.1 then p else dictSet p kv.1 kv.2) p) k
      = dictGet p k := by
  intro rest
  induction rest with
  | nil => intro p k _; rfl
  | cons kv rest ih =>
    intro p k h
    have hk : kv.1 ≠ k := h kv (List.mem_cons_self _ _)
    have hrest : ∀ kv' ∈ rest, kv'.1 ≠ k := fun x hx => h x (List.mem_cons_of_mem _ hx)
    simp only [List.foldl_cons]
    by_cases he : excluded_metadata_key kv.1
    · rw [if_pos he]
      exact ih p k hrest
    · rw [if_neg he]
      rw [ih _ k hrest]
      exact dictGet_dictSet_ne p kv.1 k kv.2 hk

/-- The metadata-copy loop of store_insights_in_qdrant transfers the sample
fragment's value for every non-excluded key present in the sample (with
dict-unique keys) onto the final payload, overriding whatever the initial
payload held there. -/
theorem dictGet_copy_fold_mem :
    ∀ (sample : List (String × String)) (p : List (String × String)) (k v : String),
    (sample.map Prod.fst).Nodup →
    dictGet sample k = some v →
    excluded_metadata_key k = false →
    dictGet (sample.foldl
        (fun p kv => if excluded_metadata_key kv.1 then p else dictSet p kv.1 kv.2) p) k
      = some v := by
  intro sample
  induction sample with
  | nil => intro p k v _ hget _; simp [dictGet] at hget
  | cons kv rest ih =>
    intro p k v hnd hget hex
    simp only [List.map_cons, List.nodup_cons] at hnd
    simp only [List.foldl_cons]
    by_cases h : kv.1 = k
    · rw [dictGet, if_pos h] at hget
      have hv : kv.2 = v := Option.some.inj hget
      have hrest : ∀ kv' ∈ rest, kv'.1 ≠ k := by
        intro x hx hxk
        exact hnd.1 (h ▸ hxk ▸ List.mem_map_of_mem Prod.fst hx)
      rw [dictGet_copy_fold_not_mem rest _ k hrest]
      rw [if_neg (by rw [h, hex]; exact Bool.false_ne_true)]
      rw [h, hv]
      exact dictGet_dictSet_self p k v
    · rw [dictGet, if_neg h] at hget
      exact ih _ k v hnd.2 hget hex

/-- C10: whenever the sample fragment metadata passed to
store_insights_in_qdrant contains a "case_type" or "data_source" key, the
stored payload's value for that key is the sample fragment's value — the
metadata-copy loop excludes only page_content, file_id, case_id and
content_type, so the sample overwrites the request-supplied case_type and
data_source arguments. -/
theorem stored_payload_prefers_sample_metadata (env : Env) (tr : Trace)
    (insights file_id case_id : String) (sample : List (String × String))
    (case_type data_source : String) (dense : List Int)
    (hnd : (sample.map Prod.fst).Nodup) :
    ∃ u : UpsertRec,
      (store_insights_in_qdrant env tr insights file_id case_id sample case_type
          data_source dense).2.upserts = tr.upserts ++ [u]
      ∧ u.point_payload = store_payload insights file_id case_id sample case_type data_source
      ∧ (∀ v, dictGet sample "case_type" = some v →
          dictGet u.point_payload "case_type" = some v)
      ∧ (∀ v, dictGet sample "data_source" = some v →
          dictGet u.point_payload "data_source" = some v) := by
  refine ⟨⟨store_payload insights file_id case_id sample case_type data_source,
    dense, (generate_sparse_embedding env insights).1,
    (generate_sparse_embedding env insights).2⟩, rfl, rfl, ?_, ?_⟩
  · intro v hget
    exact dictGet_copy_fold_mem sample _ "case_type" v hnd hget (by decide)
  · intro v hget
    exact dictGet_copy_fold_mem sample _ "data_source" v hnd hget (by decide)

/-- Witness for stored_payload_prefers_sample_metadata: a sample fragment
carrying case_type "Z" wins over the request-supplied case_type "General". -/
theorem stored_payload_prefers_sample_metadata_witness :
    ∃ u : UpsertRec,
      (store_insights_in_qdrant envTok emptyTrace "ins" "f" "c" [("case_type", "Z")]
          "General" "audio" []).2.upserts = emptyTrace.upserts ++ [u]
      ∧ dictGet u.point_payload "case_type" = some "Z"
      ∧ "Z" ≠ "General" := by
  obtain ⟨u, h1, _, h3, _⟩ := stored_payload_prefers_sample_metadata envTok emptyTrace
    "ins" "f" "c" [("case_type", "Z")] "General" "audio" [] (by decide)
  exact ⟨u, h1, h3 "Z" (by decide), by decide⟩

/-! ## Lemmas about the reduction stage -/

/-- A present non-zero max_tokens value passes Python truthiness untouched. -/
theorem truthy_max_tokens_pos (n : Nat) (h : n ≠ 0) :
    truthy_max_tokens (some n) = some n := by
  simp [truthy_max_tokens, h]

/-- The i-th labeled summary, for labeling started at index k, is
"Summary (k+i+1):" followed by the i-th summary. -/
theorem label_summaries_getD : ∀ (xs : List String) (k i : Nat), i < xs.length →
    (label_summaries k xs).getD i ""
      = "Summary " ++ toString (k + i + 1) ++ ":\n" ++ xs.getD i "" := by
  intro xs
  induction xs with
  | nil => intro k i h; simp at h
  | cons x rest ih =>
    intro k i h
    cases i with
    | zero => simp [label_summaries]
    | succ j =>
      simp only [label_summaries, List.getD_cons_succ]
      have harith : k + 1 + j + 1 = k + (j + 1) + 1 := by omega
      rw [ih (k + 1) j (by simpa using h), harith]

/-- C5: the reduction stage makes exactly one language-model call, whose
prompt is the mega-summary template over the blank-line concatenation of all
chunk summaries labeled with their 1-based position in original order, whose
max_tokens is exactly target_tokens + 500, and whose response is returned
verbatim (no post-truncation). -/
theorem mega_summary_single_labeled_call (env : Env) (tr : Trace)
    (chunk_summaries : List String) (target_tokens : Nat) :
    (create_mega_summary env tr chunk_summaries target_tokens).2.llmCalls
        = tr.llmCalls
          ++ [(MEGA_SUMMARY_PROMPT target_tokens (combined_summaries chunk_summaries),
               some (target_tokens + 500))]
    ∧ (create_mega_summary env tr chunk_summaries target_tokens).2.embedCalls = tr.embedCalls
    ∧ (create_mega_summary env tr chunk_summaries target_tokens).2.upserts = tr.upserts
    ∧ (∀ r, (create_mega_summary env tr chunk_summaries target_tokens).1 = Except.ok r →
        env.llm (MEGA_SUMMARY_PROMPT target_tokens (combined_summaries chunk_summaries))
            (some (target_tokens + 500)) = some r)
    ∧ (∀ i, i < chunk_summaries.length →
        (label_summaries 0 chunk_summaries).getD i ""
          = "Summary " ++ toString (i + 1) ++ ":\n" ++ chunk_summaries.getD i "") := by
  have htr : truthy_max_tokens (some (target_tokens + 500)) = some (target_tokens + 500) :=
    truthy_max_tokens_pos _ (by omega)
  unfold create_mega_summary call_llm
  rw [htr]
  cases henv : env.llm
      (MEGA_SUMMARY_PROMPT target_tokens (combined_summaries chunk_summaries))
      (some (target_tokens + 500)) with
  | none =>
    refine ⟨rfl, rfl, rfl, ?_, ?_⟩
    · intro r hr
      simp at hr
    · intro i hi
      have h := label_summaries_getD chunk_summaries 0 i hi
      rwa [Nat.zero_add] at h
  | some c =>
    refine ⟨rfl, rfl, rfl, ?_, ?_⟩
    · intro r hr
      simp only [Except.ok.injEq] at hr
      rw [hr]
    · intro i hi
      have h := label_summaries_getD chunk_summaries 0 i hi
      rwa [Nat.zero_add] at h

/-- Witness for mega_summary_single_labeled_call: two summaries reduced with
target 5000 produce one llm call capped at 5500, answered by the fixed
backend string, and the second label is "Summary 2:". -/
theorem mega_summary_single_labeled_call_witness :
    (create_mega_summary envTok emptyTrace ["s1", "s2"] 5000).2.llmCalls
      = [(MEGA_SUMMARY_PROMPT 5000 (combined_summaries ["s1", "s2"]), some 5500)]
    ∧ envTok.llm (MEGA_SUMMARY_PROMPT 5000 (combined_summaries ["s1", "s2"])) (some 5500)
        = some "mega"
    ∧ (label_summaries 0 ["s1", "s2"]).getD 1 ""
        = "Summary " ++ toString (1 + 1) ++ ":\n" ++ ["s1", "s2"].getD 1 "" := by
  have h := mega_summary_single_labeled_call envTok emptyTrace ["s1", "s2"] 5000
  refine ⟨?_, ?_, h.2.2.2.2 1 (by decide)⟩
  · have h1 := h.1
    simpa [emptyTrace] using h1
  · exact h.2.2.2.1 "mega" rfl

/-! ## Trace-preservation lemmas: no stage before storage touches upserts -/

/-- A language-model call never writes to the store. -/
theorem call_llm_upserts (env : Env) (tr : Trace) (prompt : String) (mt : Option Nat) :
    (call_llm env tr prompt mt).2.upserts = tr.upserts := by
  unfold call_llm
  cases env.llm prompt (truthy_max_tokens mt) <;> rfl

/-- Chunk summarization never writes to the store. -/
theorem summarize_chunk_upserts (env : Env) (tr : Trace) (c : String) (i : Nat) :
    (summarize_chunk env tr c i).2.upserts = tr.upserts :=
  call_llm_upserts env tr (SUMMARIZATION_PROMPT c) none

/-- Summarizing every chunk never writes to the store. -/
theorem summarize_all_upserts (env : Env) :
    ∀ (chunks : List String) (tr : Trace) (idx : Nat),
    (summarize_all env tr idx chunks).2.upserts = tr.upserts := by
  intro chunks
  induction chunks with
  | nil => intro tr idx; rfl
  | cons c rest ih =>
    intro tr idx
    unfold summarize_all
    rcases h1 : summarize_chunk env tr c idx with ⟨r1, tr1⟩
    have e1 := summarize_chunk_upserts env tr c idx
    rw [h1] at e1
    cases r1 with
    | error e => exact e1
    | ok s =>
      dsimp only
      rcases h2 : summarize_all env tr1 (idx + 1) rest with ⟨r2, tr2⟩
      have e2 := ih tr1 (idx + 1)
      rw [h2] at e2
      cases r2 with
      | error e => exact e2.trans e1
      | ok ss => exact e2.trans e1

/-- The reduction stage never writes to the store. -/
theorem create_mega_summary_upserts (env : Env) (tr : Trace) (xs : List String) (t : Nat) :
    (create_mega_summary env tr xs t).2.upserts = tr.upserts :=
  call_llm_upserts env tr _ _

/-- Insight extraction never writes to the store. -/
theorem generate_insights_from_text_upserts (env : Env) (tr : Trace)
    (text ct ds : String) (mt : Nat) :
    (generate_insights_from_text env tr text ct ds mt).2.upserts = tr.upserts :=
  call_llm_upserts env tr _ _

/-- The whole summarization path never writes to the store. -/
theorem generate_insights_with_summarization_upserts (env : Env) (tr : Trace)
    (text ct ds : String) :
    (generate_insights_with_summarization env tr text ct ds).2.upserts = tr.upserts := by
  unfold generate_insights_with_summarization
  dsimp only
  rcases h1 : summarize_all env tr 0
      (split_into_token_chunks env text CHUNK_SIZE_FOR_SUMMARIZATION) with ⟨r1, tr1⟩
  have e1 := summarize_all_upserts env
    (split_into_token_chunks env text CHUNK_SIZE_FOR_SUMMARIZATION) tr 0
  rw [h1] at e1
  cases r1 with
  | error e => exact e1
  | ok summaries =>
    dsimp only
    rcases h2 : create_mega_summary env tr1 summaries MEGA_SUMMARY_TARGET with ⟨r2, tr2⟩
    have e2 := create_mega_summary_upserts env tr1 summaries MEGA_SUMMARY_TARGET
    rw [h2] at e2
    cases r2 with
    | error e => exact e2.trans e1
    | ok mega =>
      dsimp only
      rcases h3 : generate_insights_from_text env tr2 mega ct ds INSIGHTS_MAX_TOKENS
        with ⟨r3, tr3⟩
      have e3 := generate_insights_from_text_upserts env tr2 mega ct ds INSIGHTS_MAX_TOKENS
      rw [h3] at e3
      cases r3 with
      | error e => exact (e3.trans e2).trans e1
      | ok insights => exact (e3.trans e2).trans e1

/-- The direct path never writes to the store. -/
theorem generate_insights_direct_upserts (env : Env) (tr : Trace) (text ct ds : String) :
    (generate_insights_direct env tr text ct ds).2.upserts = tr.upserts :=
  generate_insights_from_text_upserts env tr text ct ds INSIGHTS_MAX_TOKENS

/-- The dense-embedding stage never writes to the store. -/
theorem generate_dense_embedding_upserts (env : Env) (tr : Trace) (text cid fid : String) :
    (generate_dense_embedding env tr text cid fid).2.upserts = tr.upserts := by
  unfold generate_dense_embedding
  cases env.denseEmbed text cid fid <;> rfl

/-- On success, the summarization path reports exactly the number of token
chunks the splitter produced for the concatenated text. -/
theorem generate_insights_with_summarization_count (env : Env) (tr : Trace)
    (text ct ds t : String) (n : Nat) (tr' : Trace)
    (h : generate_insights_with_summarization env tr text ct ds = (Except.ok (t, n), tr')) :
    n = (split_into_token_chunks env text CHUNK_SIZE_FOR_SUMMARIZATION).length := by
  unfold generate_insights_with_summarization at h
  dsimp only at h
  split at h
  · exact absurd h (by simp)
  · split at h
    · exact absurd h (by simp)
    · split at h
      · exact absurd h (by simp)
      · simp only [Prod.mk.injEq, Except.ok.injEq] at h
        exact h.1.2.symm

/-! ## Shape lemmas for the post-retrieval pipeline body -/

/-- Every successful outcome of the post-retrieval body is a generated
response whose total-token count, summarization flag and summary-chunk count
are mutually consistent for the concatenated text it processed. -/
theorem process_content_ok_shape (env : Env) (req : InsightsRequest) (pts : List Point)
    (resp : InsightsResponse) (h : (process_content env req pts).1 = Except.ok resp) :
    ∃ text : String,
      resp.source = "generated"
      ∧ resp.total_tokens = some (count_tokens env text)
      ∧ resp.used_summarization = some (should_use_summarization (count_tokens env text))
      ∧ (∃ k, resp.chunk_count = some k)
      ∧ (if should_use_summarization (count_tokens env text) then
          resp.num_summary_chunks
            = some ((split_into_token_chunks env text CHUNK_SIZE_FOR_SUMMARIZATION).length)
        else resp.num_summary_chunks = none) := by
  rcases hrun : process_content env req pts with ⟨r, trX⟩
  rw [hrun] at h
  replace h : r = Except.ok resp := h
  subst h
  cases pts with
  | nil => exact absurd hrun (by simp [process_content])
  | cons p0 rest =>
    unfold process_content at hrun
    dsimp only at hrun
    split at hrun
    · exact absurd hrun (by simp)
    · split at hrun
      · exact absurd hrun (by simp)
      · rename_i hne pair insights_text nsc tr1 heq
        split at hrun
        · exact absurd hrun (by simp)
        · rename_i pair2 dense tr2 heq2
          simp only [Prod.mk.injEq, Except.ok.injEq] at hrun
          obtain ⟨hresp, -⟩ := hrun
          subst hresp
          refine ⟨_, rfl, rfl, rfl, ⟨_, rfl⟩, ?_⟩
          split at heq
          · rename_i huse
            split
            · split at heq
              · exact absurd heq (by simp)
              · rename_i t n trS heqS
                simp only [Prod.mk.injEq, Except.ok.injEq] at heq
                obtain ⟨⟨-, hnsc⟩, -⟩ := heq
                rw [← hnsc, generate_insights_with_summarization_count env emptyTrace _
                  req.case_type req.data_source t n trS heqS]
            · rename_i hc
              exact absurd huse hc
          · rename_i huse
            split
            · rename_i hc
              exact absurd hc huse
            · split at heq
              · exact absurd heq (by simp)
              · simp only [Prod.mk.injEq, Except.ok.injEq] at heq
                obtain ⟨⟨-, hnsc⟩, -⟩ := heq
                exact hnsc.symm

/-- Every failing outcome of the post-retrieval body leaves the store
untouched: its trace holds no upsert. -/
theorem process_content_error_upserts (env : Env) (req : InsightsRequest) (pts : List Point)
    (e : Err) (h : (process_content env req pts).1 = Except.error e) :
    (process_content env req pts).2.upserts = [] := by
  rcases hrun : process_content env req pts with ⟨r, trX⟩
  rw [hrun] at h
  replace h : r = Except.error e := h
  subst h
  cases pts with
  | nil =>
    have hn : process_content env req []
        = (Except.error (Err.notFound "No chunks found"), emptyTrace) := rfl
    rw [hn] at hrun
    simp only [Prod.mk.injEq] at hrun
    rw [← hrun.2]
    rfl
  | cons p0 rest =>
    unfold process_content at hrun
    dsimp only at hrun
    split at hrun
    · simp only [Prod.mk.injEq] at hrun
      rw [← hrun.2]
      rfl
    · split at hrun
      · rename_i eG trG heq
        simp only [Prod.mk.injEq] at hrun
        rw [← hrun.2]
        split at heq
        · split at heq
          · rename_i eS trS heqS
            simp only [Prod.mk.injEq] at heq
            have hS := congrArg (fun q => q.2.upserts) heqS
            dsimp only at hS
            rw [generate_insights_with_summarization_upserts] at hS
            rw [← heq.2]
            exact hS.symm
          · exact absurd heq (by simp)
        · split at heq
          · rename_i eS trS heqS
            simp only [Prod.mk.injEq] at heq
            have hS := congrArg (fun q => q.2.upserts) heqS
            dsimp only at hS
            rw [generate_insights_direct_upserts] at hS
            rw [← heq.2]
            exact hS.symm
          · exact absurd heq (by simp)
      · rename_i pr insights_text nsc tr1 heq
        split at hrun
        · rename_i eE trE heq2
          simp only [Prod.mk.injEq] at hrun
          rw [← hrun.2]
          have hE := congrArg (fun q => q.2.upserts) heq2
          dsimp only at hE
          rw [generate_dense_embedding_upserts] at hE
          rw [← hE]
          split at heq
          · split at heq
            · exact absurd heq (by simp)
            · rename_i t n trS heqS
              simp only [Prod.mk.injEq] at heq
              have hS := congrArg (fun q => q.2.upserts) heqS
              dsimp only at hS
              rw [generate_insights_with_summarization_upserts] at hS
              rw [← heq.2]
              exact hS.symm
          · split at heq
            · exact absurd heq (by simp)
            · rename_i t trS heqS
              simp only [Prod.mk.injEq] at heq
              have hS := congrArg (fun q => q.2.upserts) heqS
              dsimp only at hS
              rw [generate_insights_direct_upserts] at hS
              rw [← heq.2]
              exact hS.symm
        · exact absurd hrun (by simp)

/-- Every successful pipeline outcome is either the existing-insights
short-circuit (no counts, flag defaulted to false) or a generated response
whose counts and flag are consistent with the concatenated text processed. -/
theorem runPipeline_ok_shape (env : Env) (req : InsightsRequest) (resp : InsightsResponse)
    (h : (runPipeline env req).1 = Except.ok resp) :
    (resp.source = "existing" ∧ resp.chunk_count = none ∧ resp.total_tokens = none
      ∧ resp.used_summarization = some false ∧ resp.num_summary_chunks = none)
    ∨ (∃ text : String,
        resp.source = "generated"
        ∧ resp.total_tokens = some (count_tokens env text)
        ∧ resp.used_summarization = some (should_use_summarization (count_tokens env text))
        ∧ (∃ k, resp.chunk_count = some k)
        ∧ (if should_use_summarization (count_tokens env text) then
            resp.num_summary_chunks
              = some ((split_into_token_chunks env text CHUNK_SIZE_FOR_SUMMARIZATION).length)
          else resp.num_summary_chunks = none)) := by
  rcases hrun : runPipeline env req with ⟨r, trX⟩
  rw [hrun] at h
  replace h : r = Except.ok resp := h
  subst h
  unfold runPipeline at hrun
  dsimp only at hrun
  split at hrun
  · exact absurd hrun (by simp)
  · split at hrun
    · exact absurd hrun (by simp)
    · split at hrun
      · simp only [Prod.mk.injEq, Except.ok.injEq] at hrun
        obtain ⟨hresp, -⟩ := hrun
        subst hresp
        left
        exact ⟨rfl, rfl, rfl, rfl, rfl⟩
      · right
        exact process_content_ok_shape env req _ resp (by rw [hrun])

/-- C1: the summarization decision is a strict greater-than comparison
against the threshold: at exactly maxTokensBeforeSummarization (120000) the
decision is false (direct path) and at 120001 it is true (summarized path);
moreover every successful pipeline response reports used_summarization as
exactly this decision applied to its reported total token count, so an input
counted at the threshold takes the direct path and one token more takes the
summarized path. -/
theorem threshold_boundary_strict :
    should_use_summarization MAX_TOKENS_BEFORE_SUMMARIZATION = false
    ∧ should_use_summarization (MAX_TOKENS_BEFORE_SUMMARIZATION + 1) = true
    ∧ ∀ (env : Env) (req : InsightsRequest) (resp : InsightsResponse) (n : Nat),
        (runPipeline env req).1 = Except.ok resp → resp.total_tokens = some n →
        resp.used_summarization = some (should_use_summarization n) := by
  refine ⟨by decide, by decide, ?_⟩
  intro env req resp n hok htot
  rcases runPipeline_ok_shape env req resp hok with ⟨-, -, ht, -, -⟩ | ⟨text, -, ht, hu, -, -⟩
  · rw [ht] at htot
    exact absurd htot (by simp)
  · rw [ht] at htot
    have hn : count_tokens env text = n := Option.some.inj htot
    rw [hu, hn]

/-- Witness for threshold_boundary_strict: a concrete one-token run succeeds
and reports used_summarization = decision(1) = false. -/
theorem threshold_boundary_strict_witness :
    (runPipeline envGen reqStd).1 = Except.ok respGen
    ∧ respGen.used_summarization = some (should_use_summarization 1) := by
  have hok : (runPipeline envGen reqStd).1 = Except.ok respGen := rfl
  exact ⟨hok, threshold_boundary_strict.2.2 envGen reqStd respGen 1 hok rfl⟩

/-- C4: when the store reports existing insights for the request's (fileId,
caseType, dataSource), the operation returns source="existing" with the
stored text and performs zero language-model and zero embedding calls — in
particular, a second call whose first call stored its insights (so that the
store now reports them) short-circuits without any model call. -/
theorem existing_short_circuit_no_model_calls (env : Env) (req : InsightsRequest)
    (p : Point) (ps : List Point)
    (h1 : req.case_type.toList.all Char.isWhitespace = false)
    (h2 : dataSourceValues.contains req.data_source = true)
    (h3 : env.getPoints req.file_id (some "insights") (some req.case_type)
        (some req.data_source) = p :: ps) :
    ∃ resp : InsightsResponse,
      (runPipeline env req).1 = Except.ok resp
      ∧ resp.source = "existing"
      ∧ resp.insights = dictGetD p.payload "page_content" ""
      ∧ (runPipeline env req).2.llmCalls = []
      ∧ (runPipeline env req).2.embedCalls = []
      ∧ (runPipeline env req).2.upserts = [] := by
  unfold runPipeline
  rw [h1, if_neg (by simp : ¬(false = true)), h2,
    if_neg (by simp : ¬(true = false)), h3]
  exact ⟨_, rfl, rfl, rfl, rfl, rfl, rfl⟩

/-- Witness for existing_short_circuit_no_model_calls at a concrete store
that already holds insights. -/
theorem existing_short_circuit_no_model_calls_witness :
    reqStd.case_type.toList.all Char.isWhitespace = false
    ∧ dataSourceValues.contains reqStd.data_source = true
    ∧ ∃ resp : InsightsResponse,
        (runPipeline envExisting reqStd).1 = Except.ok resp
        ∧ resp.source = "existing"
        ∧ (runPipeline envExisting reqStd).2.llmCalls = [] := by
  refine ⟨by decide, by decide, ?_⟩
  obtain ⟨resp, ha, hb, -, hd, -, -⟩ :=
    existing_short_circuit_no_model_calls envExisting reqStd
      ⟨[("page_content", "stored insights")]⟩ [] (by decide) (by decide) rfl
  exact ⟨resp, ha, hb, hd⟩

/-- C6: in every successful outcome, used_summarization = true implies
num_summary_chunks is present, equals the number of token chunks the
splitter produced for the processed text, and is at least 1; and
used_summarization = false implies num_summary_chunks is null. -/
theorem summarization_flag_chunk_count_exclusivity (env : Env) (req : InsightsRequest)
    (resp : InsightsResponse) (h : (runPipeline env req).1 = Except.ok resp) :
    (resp.used_summarization = some true →
      ∃ (text : String) (n : Nat),
        resp.num_summary_chunks = some n
        ∧ n = (split_into_token_chunks env text CHUNK_SIZE_FOR_SUMMARIZATION).length
        ∧ resp.total_tokens = some (count_tokens env text)
        ∧ 1 ≤ n)
    ∧ (resp.used_summarization = some false → resp.num_summary_chunks = none) := by
  rcases runPipeline_ok_shape env req resp h with ⟨-, -, -, hu, hn⟩ | ⟨text, -, ht, hu, -, hif⟩
  · constructor
    · intro htrue
      rw [hu] at htrue
      exact absurd htrue (by simp)
    · intro _
      exact hn
  · constructor
    · intro htrue
      rw [hu] at htrue
      have hdec : should_use_summarization (count_tokens env text) = true :=
        Option.some.inj htrue
      rw [hdec, if_pos rfl] at hif
      refine ⟨text, _, hif, rfl, ht, ?_⟩
      have hgt : MAX_TOKENS_BEFORE_SUMMARIZATION < count_tokens env text :=
        of_decide_eq_true hdec
      have hpos : 0 < (env.encode text).length := by
        unfold count_tokens at hgt
        omega
      unfold split_into_token_chunks
      rw [List.length_map,
        chunk_token_windows_length (env.encode text) CHUNK_SIZE_FOR_SUMMARIZATION (by decide),
        Nat.one_le_div_iff (by decide)]
      omega
    · intro hfalse
      rw [hu] at hfalse
      have hdec : should_use_summarization (count_tokens env text) = false :=
        Option.some.inj hfalse
      rw [hdec, if_neg (by simp)] at hif
      exact hif

/-- Witness for summarization_flag_chunk_count_exclusivity: the concrete
direct-path run carries used_summarization = false and a null
num_summary_chunks. -/
theorem summarization_flag_chunk_count_exclusivity_witness :
    (runPipeline envGen reqStd).1 = Except.ok respGen
    ∧ respGen.num_summary_chunks = none := by
  have hok : (runPipeline envGen reqStd).1 = Except.ok respGen := rfl
  exact ⟨hok, (summarization_flag_chunk_count_exclusivity envGen reqStd respGen hok).2 rfl⟩

/-- C7: insights are stored only after every generation step has succeeded:
any execution that fails — validation, retrieval, summarization, reduction,
extraction or embedding — performs no upsert, so a retry starts from an
unchanged store. -/
theorem no_upsert_on_failure (env : Env) (req : InsightsRequest) (e : Err)
    (h : (runPipeline env req).1 = Except.error e) :
    (runPipeline env req).2.upserts = [] := by
  rcases hrun : runPipeline env req with ⟨r, trX⟩
  rw [hrun] at h
  replace h : r = Except.error e := h
  subst h
  unfold runPipeline at hrun
  dsimp only at hrun
  split at hrun
  · simp only [Prod.mk.injEq] at hrun
    rw [← hrun.2]
    rfl
  · split at hrun
    · simp only [Prod.mk.injEq] at hrun
      rw [← hrun.2]
      rfl
    · split at hrun
      · exact absurd hrun (by simp)
      · have h2 := process_content_error_upserts env req _ e (by rw [hrun])
        rw [hrun] at h2
        exact h2

/-- Witness for no_upsert_on_failure: a request with an unrecognized data
source fails and its trace holds no upsert. -/
theorem no_upsert_on_failure_witness :
    (runPipeline envTok reqBadDS).1 = Except.error (Err.badRequest "Invalid data_source")
    ∧ (runPipeline envTok reqBadDS).2.upserts = [] := by
  have herr : (runPipeline envTok reqBadDS).1
      = Except.error (Err.badRequest "Invalid data_source") := rfl
  exact ⟨herr, no_upsert_on_failure envTok reqBadDS _ herr⟩

/-- C8: when zero content fragments exist after both the strict
(data-source-filtered) and the relaxed (unfiltered) retrieval attempts, the
operation fails with NotFound before any language-model or embedding call. -/
theorem empty_content_not_found_before_model_calls (env : Env) (req : InsightsRequest)
    (h1 : req.case_type.toList.all Char.isWhitespace = false)
    (h2 : dataSourceValues.contains req.data_source = true)
    (h3 : env.getPoints req.file_id (some "insights") (some req.case_type)
        (some req.data_source) = [])
    (h4 : (env.getPoints req.file_id none none (some req.data_source)).filter not_insights = [])
    (h5 : (env.getPoints req.file_id none none none).filter not_insights = []) :
    (runPipeline env req).1 = Except.error (Err.notFound "No chunks found")
    ∧ (runPipeline env req).2.llmCalls = []
    ∧ (runPipeline env req).2.embedCalls = [] := by
  unfold runPipeline
  rw [h1, if_neg (by simp : ¬(false = true)), h2,
    if_neg (by simp : ¬(true = false)), h3]
  dsimp only
  rw [h4, if_pos rfl, h5]
  exact ⟨rfl, rfl, rfl⟩

/-- Witness for empty_content_not_found_before_model_calls at a store that
is empty for every query. -/
theorem empty_content_not_found_before_model_calls_witness :
    (runPipeline envEmpty reqStd).1 = Except.error (Err.notFound "No chunks found")
    ∧ (runPipeline envEmpty reqStd).2.llmCalls = [] := by
  have h := empty_content_not_found_before_model_calls envEmpty reqStd
    (by decide) (by decide) rfl rfl rfl
  exact ⟨h.1, h.2.1⟩

/-- C9 counterexample: a happy-path outcome with source="existing" carries no
chunk count and no token count, refuting the claim that every happy-path
outcome is accompanied by the chunk and token counts. -/
theorem happy_path_counts_counterexample :
    (runPipeline envExisting reqStd).1 = Except.ok respExist
    ∧ respExist.source = "existing"
    ∧ respExist.chunk_count = none
    ∧ respExist.total_tokens = none :=
  ⟨rfl, rfl, rfl, rfl⟩

/-- C9 as amended: every happy-path outcome is existing or generated;
generated outcomes always carry the summarization flag and the chunk and
token counts; existing outcomes carry the summarization flag (defaulted to
false) but their chunk and token counts are absent/null. -/
theorem happy_path_counts_amended (env : Env) (req : InsightsRequest)
    (resp : InsightsResponse) (h : (runPipeline env req).1 = Except.ok resp) :
    (resp.source = "existing" ∨ resp.source = "generated")
    ∧ (resp.source = "generated" →
        resp.used_summarization ≠ none ∧ resp.chunk_count ≠ none ∧ resp.total_tokens ≠ none)
    ∧ (resp.source = "existing" →
        resp.used_summarization = some false
        ∧ resp.chunk_count = none ∧ resp.total_tokens = none) := by
  rcases runPipeline_ok_shape env req resp h with ⟨hs, hc, ht, hu, -⟩ | ⟨text, hs, ht, hu, ⟨k, hc⟩, -⟩
  · refine ⟨Or.inl hs, ?_, fun _ => ⟨hu, hc, ht⟩⟩
    intro hgen
    rw [hs] at hgen
    exact absurd hgen (by decide)
  · refine ⟨Or.inr hs, fun _ => ⟨?_, ?_, ?_⟩, ?_⟩
    · rw [hu]
      simp
    · rw [hc]
      simp
    · rw [ht]
      simp
    · intro hex
      rw [hs] at hex
      exact absurd hex (by decide)

/-- Witness for happy_path_counts_amended at the concrete existing-path run. -/
theorem happy_path_counts_amended_witness :
    (runPipeline envExisting reqStd).1 = Except.ok respExist
    ∧ respExist.used_summarization = some false
    ∧ respExist.chunk_count = none
    ∧ respExist.total_tokens = none := by
  have hok : (runPipeline envExisting reqStd).1 = Except.ok respExist := rfl
  exact ⟨hok, (happy_path_counts_amended envExisting reqStd respExist hok).2.2 rfl⟩

end InsightsApi
